import Mathlib

/-!
Verification of the notebook persistence core of the note-to-self
application (src/src/notebook.rs and the server functions of
src/src/app.rs).

The persisted store (two Postgres relations, `notebooks` and `texts`) is
embedded as lists of rows together with the serial-id counters of the
engine.  Each SQL statement issued by the source is translated into a
pure function on this store; the server functions of app.rs are
translated with their session gate, the resulting store, the returned
value, the redirect they issue, and the list of store statements they
execute.
-/

namespace NoteToSelf

/-- In-memory text cell, mirrors `struct TextFile { text: String, id: i32 }`
(src/src/notebook.rs). -/
structure TextFile where
  text : String
  id : Int
  deriving DecidableEq, Repr

/-- In-memory notebook, mirrors `struct Notebook { id, name, texts }`
(src/src/notebook.rs). -/
structure Notebook where
  id : Int
  name : String
  texts : List TextFile
  deriving DecidableEq, Repr

/-- A row of the `notebooks` relation (`notebooks(id, name)`). -/
structure NotebookRow where
  id : Int
  name : String
  deriving DecidableEq, Repr

/-- A row of the `texts` relation (`texts(id, notebook_id, text)`). -/
structure TextRow where
  id : Int
  notebook_id : Int
  text : String
  deriving DecidableEq, Repr

/-- The persisted store: the two relations plus the serial counters the
engine uses to assign fresh primary keys (`SERIAL`). -/
structure DB where
  notebooks : List NotebookRow
  texts : List TextRow
  nextNotebookId : Int
  nextTextId : Int
  deriving DecidableEq, Repr

theorem DB.ext_components {a b : DB} (h1 : a.notebooks = b.notebooks)
    (h2 : a.texts = b.texts) (h3 : a.nextNotebookId = b.nextNotebookId)
    (h4 : a.nextTextId = b.nextTextId) : a = b := by
  cases a; cases b; simp_all

/-- `SELECT name FROM notebooks WHERE id = $1` with `fetch_optional`:
the first row with the given id, if any. -/
def selectNotebookName (db : DB) (id : Int) : Option NotebookRow :=
  db.notebooks.find? (fun r => r.id == id)

/-- `INSERT INTO notebooks (id, name) VALUES ($1, $2) ON CONFLICT (id) DO
UPDATE SET name = EXCLUDED.name`: update the name of the rows keyed by
`id` if present, otherwise append a fresh row. -/
def execUpsertNotebook (id : Int) (name : String) (N : List NotebookRow) :
    List NotebookRow :=
  if N.any (fun r => r.id == id) then
    N.map (fun r => if r.id = id then { r with name := name } else r)
  else
    N ++ [{ id := id, name := name }]

/-- Effect, on one row, of `ON CONFLICT (id) DO UPDATE SET text =
EXCLUDED.text` for the conflicting id `i`: only the `text` column is
updated (in particular `notebook_id` is left as it was). -/
def updateRowText (i : Int) (s : String) (r : TextRow) : TextRow :=
  if r.id = i then { r with text := s } else r

/-- One row of the batched statement `INSERT INTO texts (id, notebook_id,
text) VALUES ... ON CONFLICT (id) DO UPDATE SET text = EXCLUDED.text`:
if a row keyed by `i` exists its text is overwritten, otherwise a fresh
row owned by `nid` is appended. -/
def execUpsertText (nid i : Int) (s : String) (T : List TextRow) : List TextRow :=
  if T.any (fun r => r.id == i) then T.map (updateRowText i s)
  else T ++ [{ id := i, notebook_id := nid, text := s }]

/-- The batched cell upsert of `Notebook::save`, processing the submitted
cells row by row.  (The engine rejects a batch naming the same id twice,
so the theorems below consider snapshots with pairwise distinct cell
ids.)  An empty snapshot skips the statement, matching the
`if let Some(values)` branch of the source. -/
def execUpsertCells (nid : Int) (cells : List TextFile) (T : List TextRow) :
    List TextRow :=
  cells.foldl (fun T c => execUpsertText nid c.id c.text T) T

/-- The stale-cell delete of `Notebook::save`: with a non-empty snapshot,
`DELETE FROM texts WHERE id NOT IN (ids_to_keep) AND notebook_id = $1`;
with an empty snapshot, `DELETE FROM texts WHERE notebook_id = $1`. -/
def execDeleteStale (nid : Int) (keep : List Int) (T : List TextRow) :
    List TextRow :=
  match keep with
  | [] => T.filter (fun r => !(r.notebook_id == nid))
  | _ :: _ => T.filter (fun r => !(!(keep.contains r.id) && r.notebook_id == nid))

/-- `Notebook::get_from_id` (src/src/notebook.rs): fetch the name row,
fetch the join of `texts` with this notebook, and assemble the notebook
when the name row exists. -/
def Notebook.get_from_id (db : DB) (id : Int) : Option Notebook :=
  match selectNotebookName db id with
  | some row =>
      some { id := id, name := row.name,
             texts := (db.texts.filter (fun t => t.notebook_id == id)).map
               (fun t => { text := t.text, id := t.id }) }
  | none => none

/-- `Notebook::save` (src/src/notebook.rs): three successive statements on
the pool — name upsert, batched cell upsert, stale-cell delete. -/
def Notebook.save (nb : Notebook) (db : DB) : DB :=
  let db1 : DB := { db with notebooks := execUpsertNotebook nb.id nb.name db.notebooks }
  let db2 : DB := { db1 with texts := execUpsertCells nb.id nb.texts db1.texts }
  { db2 with texts := execDeleteStale nb.id (nb.texts.map (fun t => t.id)) db2.texts }

/-- The persisted store after the first `n` of the three statements of
`Notebook::save` have committed.  The source wraps the statements in no
transaction and propagates a failure of any statement immediately, so if
statement `n + 1` fails this is exactly the state left behind. -/
def Notebook.saveFirstStatements (nb : Notebook) (db : DB) : Nat → DB
  | 0 => db
  | 1 => { db with notebooks := execUpsertNotebook nb.id nb.name db.notebooks }
  | 2 => { db with notebooks := execUpsertNotebook nb.id nb.name db.notebooks,
                   texts := execUpsertCells nb.id nb.texts db.texts }
  | _ => nb.save db

/-- `Notebook::add_new_text` (src/src/notebook.rs): push onto the cell
list. -/
def Notebook.add_new_text (nb : Notebook) (t : TextFile) : Notebook :=
  { nb with texts := nb.texts ++ [t] }

/-- First-match replacement used by `Notebook::set_text`
(`self.texts.iter_mut().find(|t| t.id == id)` then overwrite). -/
def setFirstText : List TextFile → Int → String → List TextFile
  | [], _, _ => []
  | t :: ts, i, s => if t.id = i then { t with text := s } :: ts else t :: setFirstText ts i s

/-- `Notebook::set_text` (src/src/notebook.rs). -/
def Notebook.set_text (nb : Notebook) (id : Int) (text : String) : Notebook :=
  { nb with texts := setFirstText nb.texts id text }

/-- First-match removal used by `Notebook::delete_text` (find the index of
the first cell with the given id, then remove it). -/
def deleteFirstText : List TextFile → Int → List TextFile
  | [], _ => []
  | t :: ts, i => if t.id = i then ts else t :: deleteFirstText ts i

/-- `Notebook::delete_text` (src/src/notebook.rs). -/
def Notebook.delete_text (nb : Notebook) (id : Int) : Notebook :=
  { nb with texts := deleteFirstText nb.texts id }

/-- The full call of `Notebook::delete_text`: its effect on the notebook
together with its return value, which in the source is the unit value
(`pub fn delete_text(&mut self, id: i32)` returns `()`). -/
def Notebook.delete_text_call (nb : Notebook) (id : Int) : Notebook × Unit :=
  (nb.delete_text id, ())

/-! Server functions of src/src/app.rs.  The actix session is embedded as
the optional `notebook_id` it binds; each server function is a function
of the session and the store, returning its result, the store it leaves
behind, the redirect it issues, and the store statements it ran. -/

/-- Errors surfaced by the server functions, abstracting the
`ServerFnError` payloads of the source. -/
inductive AppError where
  /-- `NoAccessToNotebookError` / the access denials of app.rs. -/
  | noAccess
  /-- `get_notebook` on an id with no notebooks row. -/
  | notebookMissing (id : Int)
  /-- `create_notebook` on a name that is already taken. -/
  | alreadyExists
  /-- Insert of a cell whose `notebook_id` references no notebook. -/
  | notFound
  deriving DecidableEq, Repr

/-- The redirects issued via `leptos_actix::redirect`. -/
inductive Redirect where
  | home
  | notebookPage (id : Int)
  deriving DecidableEq, Repr

/-- A statement run against the store, for tracing which server functions
reach the store at all. -/
inductive StoreCall where
  | loadNotebook (id : Int)
  | saveNotebook (id : Int)
  | insertCell (id : Int)
  deriving DecidableEq, Repr

/-- Outcome of one server-function call. -/
structure ServerOutcome (α : Type) where
  result : Except AppError α
  db : DB
  redirect : Option Redirect
  calls : List StoreCall

/-- The session gate of app.rs:
`session.get("notebook_id").is_some_and(|notebook_id| notebook_id == id)`. -/
def sessionMatches (session : Option Int) (id : Int) : Bool :=
  match session with
  | some nid => nid == id
  | none => false

/-- `get_notebook` (src/src/app.rs): gate on the session, then load;
a missing notebook surfaces as an error, a gate denial redirects home. -/
def get_notebook (session : Option Int) (id : Int) (db : DB) : ServerOutcome Notebook :=
  if sessionMatches session id then
    match Notebook.get_from_id db id with
    | some nb => ⟨.ok nb, db, none, [.loadNotebook id]⟩
    | none => ⟨.error (.notebookMissing id), db, none, [.loadNotebook id]⟩
  else ⟨.error .noAccess, db, some .home, []⟩

/-- `save_notebook` (src/src/app.rs): gate on the session, then run
`Notebook::save`. -/
def save_notebook (session : Option Int) (nb : Notebook) (db : DB) : ServerOutcome Unit :=
  if sessionMatches session nb.id then
    ⟨.ok (), nb.save db, none, [.saveNotebook nb.id]⟩
  else ⟨.error .noAccess, db, some .home, []⟩

/-- Modelled from the spec: the schema of the `texts` relation is not in
src/ (no migration is present); §6 of the spec declares
`cells(id PK, notebook_id FK -> notebooks.id, text)`, so an insert whose
`notebook_id` references no notebook is rejected and persists no row —
the `NotFound` failure of the spec's `addCell`.  On success the engine
assigns the next serial id, `RETURNING id, text`. -/
def insertCellRow (db : DB) (nid : Int) (s : String) : Except AppError (TextFile × DB) :=
  if db.notebooks.any (fun r => r.id == nid) then
    .ok ({ text := s, id := db.nextTextId },
         { db with texts := db.texts ++ [{ id := db.nextTextId, notebook_id := nid, text := s }],
                   nextTextId := db.nextTextId + 1 })
  else .error .notFound

/-- `add_new_text_to_notebook` (src/src/app.rs): gate on the session, then
`INSERT INTO texts (notebook_id, text) VALUES ($1, 'New Text Box...')
RETURNING id, text`. -/
def add_new_text_to_notebook (session : Option Int) (id : Int) (db : DB) :
    ServerOutcome TextFile :=
  if sessionMatches session id then
    match insertCellRow db id "New Text Box..." with
    | .ok (tf, db2) => ⟨.ok tf, db2, none, [.insertCell id]⟩
    | .error e => ⟨.error e, db, none, [.insertCell id]⟩
  else ⟨.error .noAccess, db, some .home, []⟩

/-- Outcome of `create_notebook`, which also rebinds the session. -/
structure CreateOutcome where
  result : Except AppError Unit
  db : DB
  session : Option Int
  redirect : Option Redirect

/-- `create_notebook` (src/src/app.rs): look the name up; if taken, fail
and insert nothing; otherwise `INSERT INTO notebooks (name) VALUES ($1)
RETURNING id`, bind the session to the fresh id and redirect to the
notebook page. -/
def create_notebook (session : Option Int) (name : String) (db : DB) : CreateOutcome :=
  if db.notebooks.any (fun r => r.name == name) then
    ⟨.error .alreadyExists, db, session, none⟩
  else
    ⟨.ok (),
     { db with notebooks := db.notebooks ++ [{ id := db.nextNotebookId, name := name }],
               nextNotebookId := db.nextNotebookId + 1 },
     some db.nextNotebookId,
     some (.notebookPage db.nextNotebookId)⟩

/-! Concrete stores and notebooks used to instantiate the theorems. -/

/-- A store with one notebook owning three cells. -/
def dbGroceries : DB := ⟨[⟨1, "Groceries"⟩], [⟨1, 1, "a"⟩, ⟨2, 1, "b"⟩, ⟨3, 1, "c"⟩], 2, 4⟩

/-- A snapshot of notebook 1 omitting cell 2. -/
def nbGroceries : Notebook := ⟨1, "Groceries", [⟨"a", 1⟩, ⟨"c", 3⟩]⟩

/-- A snapshot of notebook 1 with no cells at all. -/
def nbNoCells : Notebook := ⟨1, "Groceries", []⟩

/-- A store in which cell 10 is owned by notebook 2, not notebook 1. -/
def dbForeignCell : DB := ⟨[⟨1, "A"⟩, ⟨2, "B"⟩], [⟨10, 2, "other"⟩], 3, 11⟩

/-- A snapshot of notebook 1 claiming cell 10. -/
def nbMilk : Notebook := ⟨1, "A", [⟨"Milk", 10⟩]⟩

/-- A store with one notebook owning cells 10 and 11. -/
def dbTwoCells : DB := ⟨[⟨1, "A"⟩], [⟨10, 1, "x"⟩, ⟨11, 1, "y"⟩], 2, 12⟩

/-! Basic facts about the embedded SQL statements. -/

theorem any_id_iff (T : List TextRow) (i : Int) :
    T.any (fun r => r.id == i) = true ↔ ∃ r ∈ T, r.id = i := by
  simp [List.any_eq_true]

theorem any_nbid_iff (N : List NotebookRow) (i : Int) :
    N.any (fun r => r.id == i) = true ↔ ∃ r ∈ N, r.id = i := by
  simp [List.any_eq_true]

theorem updateRowText_id (i : Int) (s : String) (r : TextRow) :
    (updateRowText i s r).id = r.id := by
  unfold updateRowText; split <;> rfl

theorem updateRowText_notebook_id (i : Int) (s : String) (r : TextRow) :
    (updateRowText i s r).notebook_id = r.notebook_id := by
  unfold updateRowText; split <;> rfl

theorem list_map_eq_self {α : Type} {T : List α} {f : α → α}
    (h : ∀ a ∈ T, f a = a) : T.map f = T := by
  induction T with
  | nil => rfl
  | cons a t ih => simp only [List.map_cons, h a (List.mem_cons_self a t),
      ih (fun b hb => h b (List.mem_cons_of_mem a hb))]

theorem exists_id_mem_execUpsertText_self (nid i : Int) (s : String) (T : List TextRow) :
    ∃ r ∈ execUpsertText nid i s T, r.id = i := by
  unfold execUpsertText
  split
  · rename_i h
    obtain ⟨r, hr, hid⟩ := (any_id_iff T i).1 h
    exact ⟨updateRowText i s r, List.mem_map_of_mem _ hr, by rw [updateRowText_id]; exact hid⟩
  · exact ⟨_, List.mem_append_right _ (List.mem_singleton_self _), rfl⟩

theorem mem_execUpsertText_elim {nid i : Int} {s : String} {T : List TextRow} {r : TextRow}
    (h : r ∈ execUpsertText nid i s T) :
    (r.id = i ∧ r.text = s ∧
      (r.notebook_id = nid ∨ ∃ r0 ∈ T, r0.id = i ∧ r0.notebook_id = r.notebook_id)) ∨
    (r.id ≠ i ∧ r ∈ T) := by
  unfold execUpsertText at h
  split at h
  · obtain ⟨r0, hr0, rfl⟩ := List.mem_map.1 h
    by_cases hid : r0.id = i
    · left
      refine ⟨?_, ?_, Or.inr ⟨r0, hr0, hid, ?_⟩⟩
      · rw [updateRowText_id]; exact hid
      · simp [updateRowText, hid]
      · rw [updateRowText_notebook_id]
    · right
      have he : updateRowText i s r0 = r0 := by simp [updateRowText, hid]
      rw [he]
      exact ⟨hid, hr0⟩
  · rename_i hany
    rcases List.mem_append.1 h with hT | hnew
    · right
      refine ⟨fun hid => ?_, hT⟩
      exact absurd ((any_id_iff T i).2 ⟨r, hT, hid⟩) (by simp_all)
    · left
      rcases List.mem_singleton.1 hnew with rfl
      exact ⟨rfl, rfl, Or.inl rfl⟩

theorem mem_execUpsertText_other {nid i : Int} {s : String} {T : List TextRow} {r : TextRow}
    (hne : r.id ≠ i) : r ∈ execUpsertText nid i s T ↔ r ∈ T := by
  constructor
  · intro h
    rcases mem_execUpsertText_elim h with ⟨hid, _⟩ | ⟨_, hT⟩
    · exact absurd hid hne
    · exact hT
  · intro h
    unfold execUpsertText
    split
    · have he : updateRowText i s r = r := by simp [updateRowText, hne]
      have h2 := List.mem_map_of_mem (updateRowText i s) h
      rwa [he] at h2
    · exact List.mem_append_left _ h

theorem exists_id_mem_execUpsertText_mono {T : List TextRow} {j : Int} (nid i : Int) (s : String)
    (h : ∃ r ∈ T, r.id = j) : ∃ r ∈ execUpsertText nid i s T, r.id = j := by
  obtain ⟨r, hr, hj⟩ := h
  unfold execUpsertText
  split
  · exact ⟨updateRowText i s r, List.mem_map_of_mem _ hr, by rw [updateRowText_id]; exact hj⟩
  · exact ⟨r, List.mem_append_left _ hr, hj⟩

theorem text_mem_execUpsertText {nid i : Int} {s : String} {T : List TextRow} {r : TextRow}
    (h : r ∈ execUpsertText nid i s T) (hid : r.id = i) : r.text = s := by
  rcases mem_execUpsertText_elim h with ⟨_, ht, _⟩ | ⟨hne, _⟩
  · exact ht
  · exact absurd hid hne

theorem execUpsertCells_nil (nid : Int) (T : List TextRow) :
    execUpsertCells nid [] T = T := rfl

theorem execUpsertCells_cons (nid : Int) (c : TextFile) (cs : List TextFile) (T : List TextRow) :
    execUpsertCells nid (c :: cs) T = execUpsertCells nid cs (execUpsertText nid c.id c.text T) := rfl

theorem exists_id_mem_execUpsertCells_mono {j : Int} (nid : Int) (cells : List TextFile)
    {T : List TextRow} (h : ∃ r ∈ T, r.id = j) :
    ∃ r ∈ execUpsertCells nid cells T, r.id = j := by
  induction cells generalizing T with
  | nil => exact h
  | cons c cs ih => exact ih (exists_id_mem_execUpsertText_mono nid c.id c.text h)

theorem exists_id_mem_execUpsertCells {c : TextFile} (nid : Int) {cells : List TextFile}
    (T : List TextRow) (hc : c ∈ cells) :
    ∃ r ∈ execUpsertCells nid cells T, r.id = c.id := by
  induction cells generalizing T with
  | nil => cases hc
  | cons c0 cs ih =>
    rcases List.mem_cons.1 hc with rfl | hc2
    · exact exists_id_mem_execUpsertCells_mono nid cs
        (exists_id_mem_execUpsertText_self nid c.id c.text T)
    · exact ih _ hc2

theorem mem_execUpsertCells_of_not_mem_ids {r : TextRow} (nid : Int) {cells : List TextFile}
    {T : List TextRow} (hid : r.id ∉ cells.map (fun t => t.id)) :
    r ∈ execUpsertCells nid cells T ↔ r ∈ T := by
  induction cells generalizing T with
  | nil => exact Iff.rfl
  | cons c cs ih =>
    have h1 : r.id ≠ c.id := fun h => hid (by simp [h])
    have h2 : r.id ∉ cs.map (fun t => t.id) := fun h => hid (by simp [h])
    rw [execUpsertCells_cons, ih h2, mem_execUpsertText_other h1]

theorem text_mem_execUpsertCells {nid : Int} {cells : List TextFile} {T : List TextRow}
    {c : TextFile} {r : TextRow} (hnd : (cells.map (fun t => t.id)).Nodup) (hc : c ∈ cells)
    (h : r ∈ execUpsertCells nid cells T) (hid : r.id = c.id) : r.text = c.text := by
  induction cells generalizing T with
  | nil => cases hc
  | cons c0 cs ih =>
    rw [execUpsertCells_cons] at h
    have hnd2 : (cs.map (fun t => t.id)).Nodup := by
      rw [List.map_cons, List.nodup_cons] at hnd
      exact hnd.2
    rcases List.mem_cons.1 hc with rfl | hc2
    · have hnot : r.id ∉ cs.map (fun t => t.id) := by
        rw [List.map_cons, List.nodup_cons] at hnd
        rw [hid]
        exact hnd.1
      have hr : r ∈ execUpsertText nid c.id c.text T :=
        (mem_execUpsertCells_of_not_mem_ids nid hnot).1 h
      exact text_mem_execUpsertText hr hid
    · exact ih hnd2 hc2 h

theorem notebookId_mem_execUpsertText {nid i : Int} {s : String} {T : List TextRow} {r : TextRow}
    (h : r ∈ execUpsertText nid i s T) :
    r.notebook_id = nid ∨ ∃ r0 ∈ T, r0.id = r.id ∧ r0.notebook_id = r.notebook_id := by
  rcases mem_execUpsertText_elim h with ⟨hid, _, hnb⟩ | ⟨_, hT⟩
  · rcases hnb with h1 | ⟨r0, hr0, hi, hn⟩
    · exact Or.inl h1
    · exact Or.inr ⟨r0, hr0, by rw [hi, hid], hn⟩
  · exact Or.inr ⟨r, hT, rfl, rfl⟩

theorem notebookId_mem_execUpsertCells {nid : Int} {cells : List TextFile} {T : List TextRow}
    {r : TextRow} (h : r ∈ execUpsertCells nid cells T) :
    r.notebook_id = nid ∨ ∃ r0 ∈ T, r0.id = r.id ∧ r0.notebook_id = r.notebook_id := by
  induction cells generalizing T with
  | nil => exact Or.inr ⟨r, h, rfl, rfl⟩
  | cons c cs ih =>
    rw [execUpsertCells_cons] at h
    rcases ih h with h1 | ⟨r1, hr1, hid1, hn1⟩
    · exact Or.inl h1
    · rcases notebookId_mem_execUpsertText hr1 with h2 | ⟨r0, hr0, hid0, hn0⟩
      · exact Or.inl (hn1 ▸ h2)
      · exact Or.inr ⟨r0, hr0, by rw [hid0, hid1], by rw [hn0, hn1]⟩

theorem mem_execDeleteStale {nid : Int} {keep : List Int} {T : List TextRow} {r : TextRow} :
    r ∈ execDeleteStale nid keep T ↔ r ∈ T ∧ (r.notebook_id = nid → r.id ∈ keep) := by
  cases keep with
  | nil => simp [execDeleteStale, List.mem_filter]
  | cons k ks =>
    simp only [execDeleteStale, List.mem_filter, Bool.not_eq_true', Bool.and_eq_false_iff,
      Bool.not_eq_false', List.contains_eq_any_beq, List.any_eq_true, beq_iff_eq]
    constructor
    · rintro ⟨hT, h | h⟩
      · exact ⟨hT, fun _ => by simpa using h⟩
      · exact ⟨hT, fun hn => absurd hn (by simpa using h)⟩
    · rintro ⟨hT, h⟩
      refine ⟨hT, ?_⟩
      by_cases hn : r.notebook_id = nid
      · exact Or.inl (by simpa using h hn)
      · exact Or.inr (by simpa using hn)

theorem execDeleteStale_eq_self {nid : Int} {keep : List Int} {T : List TextRow}
    (h : ∀ r ∈ T, r.notebook_id = nid → r.id ∈ keep) :
    execDeleteStale nid keep T = T := by
  cases keep with
  | nil =>
    refine List.filter_eq_self.2 (fun r hr => ?_)
    simp only [Bool.not_eq_true', beq_eq_false_iff_ne, ne_eq]
    intro hn
    simpa using h r hr hn
  | cons k ks =>
    refine List.filter_eq_self.2 (fun r hr => ?_)
    by_cases hn : r.notebook_id = nid
    · have hk := h r hr hn
      simp only [hn, List.contains_eq_any_beq, List.any_eq_true, beq_iff_eq,
        Bool.not_eq_true', Bool.and_eq_false_iff, Bool.not_eq_false']
      left
      simpa using hk
    · simp [hn]

theorem exists_id_mem_execUpsertNotebook_self (i : Int) (n : String) (N : List NotebookRow) :
    ∃ r ∈ execUpsertNotebook i n N, r.id = i := by
  unfold execUpsertNotebook
  split
  · rename_i h
    obtain ⟨r, hr, hid⟩ := (any_nbid_iff N i).1 h
    refine ⟨{ r with name := n }, ?_, hid⟩
    simpa [hid] using List.mem_map_of_mem (fun r => if r.id = i then { r with name := n } else r) hr
  · exact ⟨_, List.mem_append_right _ (List.mem_singleton_self _), rfl⟩

theorem name_mem_execUpsertNotebook {i : Int} {n : String} {N : List NotebookRow}
    {r : NotebookRow} (h : r ∈ execUpsertNotebook i n N) (hid : r.id = i) : r.name = n := by
  unfold execUpsertNotebook at h
  split at h
  · obtain ⟨r0, hr0, rfl⟩ := List.mem_map.1 h
    by_cases h0 : r0.id = i
    · simp [h0]
    · rw [if_neg h0] at hid ⊢
      exact absurd hid h0
  · rename_i hany
    rcases List.mem_append.1 h with hT | hnew
    · exact absurd ((any_nbid_iff N i).2 ⟨r, hT, hid⟩) (by simp_all)
    · rcases List.mem_singleton.1 hnew with rfl
      rfl

theorem execUpsertNotebook_eq_self {i : Int} {n : String} {N : List NotebookRow}
    (h1 : ∃ r ∈ N, r.id = i) (h2 : ∀ r ∈ N, r.id = i → r.name = n) :
    execUpsertNotebook i n N = N := by
  unfold execUpsertNotebook
  rw [if_pos ((any_nbid_iff N i).2 h1)]
  refine list_map_eq_self (fun r hr => ?_)
  split
  · rename_i hid
    rw [← h2 r hr hid]
  · rfl

theorem execUpsertNotebook_idem (i : Int) (n : String) (N : List NotebookRow) :
    execUpsertNotebook i n (execUpsertNotebook i n N) = execUpsertNotebook i n N :=
  execUpsertNotebook_eq_self (exists_id_mem_execUpsertNotebook_self i n N)
    (fun _ hr hid => name_mem_execUpsertNotebook hr hid)

theorem execUpsertText_eq_self {nid i : Int} {s : String} {T : List TextRow}
    (h1 : ∃ r ∈ T, r.id = i) (h2 : ∀ r ∈ T, r.id = i → r.text = s) :
    execUpsertText nid i s T = T := by
  unfold execUpsertText
  rw [if_pos ((any_id_iff T i).2 h1)]
  refine list_map_eq_self (fun r hr => ?_)
  unfold updateRowText
  split
  · rename_i hid
    rw [← h2 r hr hid]
  · rfl

theorem execUpsertCells_eq_self {nid : Int} {cells : List TextFile} {T : List TextRow}
    (h1 : ∀ c ∈ cells, ∃ r ∈ T, r.id = c.id)
    (h2 : ∀ c ∈ cells, ∀ r ∈ T, r.id = c.id → r.text = c.text) :
    execUpsertCells nid cells T = T := by
  induction cells with
  | nil => rfl
  | cons c cs ih =>
    rw [execUpsertCells_cons,
      execUpsertText_eq_self (h1 c (List.mem_cons_self c cs)) (h2 c (List.mem_cons_self c cs))]
    exact ih (fun c2 hc => h1 c2 (List.mem_cons_of_mem c hc))
      (fun c2 hc => h2 c2 (List.mem_cons_of_mem c hc))

/-! The three statements of `Notebook::save`, read off the composed
definition. -/

theorem save_notebooks (nb : Notebook) (db : DB) :
    (nb.save db).notebooks = execUpsertNotebook nb.id nb.name db.notebooks := rfl

theorem save_texts (nb : Notebook) (db : DB) :
    (nb.save db).texts =
      execDeleteStale nb.id (nb.texts.map (fun t => t.id))
        (execUpsertCells nb.id nb.texts db.texts) := rfl

theorem save_nextNotebookId (nb : Notebook) (db : DB) :
    (nb.save db).nextNotebookId = db.nextNotebookId := rfl

theorem save_nextTextId (nb : Notebook) (db : DB) :
    (nb.save db).nextTextId = db.nextTextId := rfl

/-- C3: for every notebook whose snapshot names each cell id once, calling
`Notebook::save` twice in a row with no intervening operation leaves the
persisted state — notebook rows, cell rows and counters — identical to
the state after calling it once. -/
theorem save_idempotent (nb : Notebook) (db : DB)
    (h : (nb.texts.map (fun t => t.id)).Nodup) :
    nb.save (nb.save db) = nb.save db := by
  have hex : ∀ c ∈ nb.texts, ∃ r ∈ (nb.save db).texts, r.id = c.id := by
    intro c hc
    obtain ⟨r, hr, hid⟩ := exists_id_mem_execUpsertCells nb.id db.texts hc
    refine ⟨r, ?_, hid⟩
    rw [save_texts]
    exact mem_execDeleteStale.2 ⟨hr, fun _ => by rw [hid]; exact List.mem_map_of_mem _ hc⟩
  have htx : ∀ c ∈ nb.texts, ∀ r ∈ (nb.save db).texts, r.id = c.id → r.text = c.text := by
    intro c hc r hr hid
    rw [save_texts] at hr
    exact text_mem_execUpsertCells h hc (mem_execDeleteStale.1 hr).1 hid
  have hkeep : ∀ r ∈ (nb.save db).texts,
      r.notebook_id = nb.id → r.id ∈ nb.texts.map (fun t => t.id) := by
    intro r hr
    rw [save_texts] at hr
    exact (mem_execDeleteStale.1 hr).2
  apply DB.ext_components
  · rw [save_notebooks nb (nb.save db), save_notebooks nb db]
    exact execUpsertNotebook_idem nb.id nb.name db.notebooks
  · rw [save_texts nb (nb.save db), execUpsertCells_eq_self hex htx,
      execDeleteStale_eq_self hkeep]
  · rfl
  · rfl

theorem save_idempotent_witness :
    Notebook.save nbGroceries (Notebook.save nbGroceries dbGroceries) =
      Notebook.save nbGroceries dbGroceries :=
  save_idempotent nbGroceries dbGroceries (by decide)

/-- C1 (amended): provided the snapshot names each cell id once and no
submitted cell id is owned by a different notebook in the store, saving
and then loading by id returns some notebook whose cell set, as a set
ignoring order, is exactly the submitted one. -/
theorem save_get_from_id_roundtrip (nb : Notebook) (db : DB)
    (h1 : (nb.texts.map (fun t => t.id)).Nodup)
    (h2 : ∀ r ∈ db.texts, ∀ c ∈ nb.texts, r.id = c.id → r.notebook_id = nb.id) :
    ∃ nb2 : Notebook, Notebook.get_from_id (nb.save db) nb.id = some nb2 ∧
      nb2.id = nb.id ∧ ∀ tf : TextFile, tf ∈ nb2.texts ↔ tf ∈ nb.texts := by
  obtain ⟨row, hrow⟩ : ∃ row, selectNotebookName (nb.save db) nb.id = some row := by
    obtain ⟨r, hr, hid⟩ := exists_id_mem_execUpsertNotebook_self nb.id nb.name db.notebooks
    refine Option.isSome_iff_exists.1 ?_
    rw [selectNotebookName, List.find?_isSome]
    exact ⟨r, by rw [save_notebooks]; exact hr, by simp [hid]⟩
  have hget : Notebook.get_from_id (nb.save db) nb.id =
      some { id := nb.id, name := row.name,
             texts := ((nb.save db).texts.filter (fun t => t.notebook_id == nb.id)).map
               (fun t => { text := t.text, id := t.id }) } := by
    simp only [Notebook.get_from_id, hrow]
  refine ⟨_, hget, rfl, fun tf => ?_⟩
  constructor
  · intro htf
    obtain ⟨r, hrf, rfl⟩ := List.mem_map.1 htf
    obtain ⟨hrT, hnbeq⟩ := List.mem_filter.1 hrf
    have hnid : r.notebook_id = nb.id := by simpa using hnbeq
    rw [save_texts] at hrT
    obtain ⟨hrup, hkeep⟩ := mem_execDeleteStale.1 hrT
    obtain ⟨c, hc, hcid⟩ := List.mem_map.1 (hkeep hnid)
    have htx : r.text = c.text := text_mem_execUpsertCells h1 hc hrup hcid.symm
    have heq : ({ text := r.text, id := r.id } : TextFile) = c := by rw [htx, ← hcid]
    rw [heq]
    exact hc
  · intro hc
    obtain ⟨r, hrup, hrid⟩ := exists_id_mem_execUpsertCells nb.id db.texts hc
    have htx : r.text = tf.text := text_mem_execUpsertCells h1 hc hrup hrid
    have hnid : r.notebook_id = nb.id := by
      rcases notebookId_mem_execUpsertCells hrup with hn | ⟨r0, hr0, hid0, hn0⟩
      · exact hn
      · rw [← hn0]
        exact h2 r0 hr0 tf hc (by rw [hid0, hrid])
    have hkeep : r.id ∈ nb.texts.map (fun t => t.id) := by
      rw [hrid]
      exact List.mem_map_of_mem _ hc
    have hrT : r ∈ (nb.save db).texts := by
      rw [save_texts]
      exact mem_execDeleteStale.2 ⟨hrup, fun _ => hkeep⟩
    refine List.mem_map.2 ⟨r, List.mem_filter.2 ⟨hrT, by simp [hnid]⟩, ?_⟩
    rw [htx, hrid]

theorem save_get_from_id_roundtrip_witness :
    ∃ nb2 : Notebook, Notebook.get_from_id (Notebook.save nbGroceries dbGroceries) nbGroceries.id = some nb2 ∧
      nb2.id = nbGroceries.id ∧ ∀ tf : TextFile, tf ∈ nb2.texts ↔ tf ∈ nbGroceries.texts :=
  save_get_from_id_roundtrip nbGroceries dbGroceries (by decide) (by decide)

/-- C1 (counterexample): in a store where cell 10 is owned by notebook 2,
saving notebook 1 with cell set {(10, Milk)} and loading notebook 1 back
does not return that cell set — the conflict clause of the cell upsert
updates only the text, never the owner, so cell 10 stays with
notebook 2. -/
theorem save_get_from_id_roundtrip_cex :
    ¬ ∃ nb2 : Notebook,
        Notebook.get_from_id (Notebook.save nbMilk dbForeignCell) nbMilk.id = some nb2 ∧
          ∀ tf : TextFile, tf ∈ nb2.texts ↔ tf ∈ nbMilk.texts := by
  rintro ⟨nb2, hget, hiff⟩
  have h0 : Notebook.get_from_id (Notebook.save nbMilk dbForeignCell) nbMilk.id =
      some (⟨1, "A", []⟩ : Notebook) := by decide
  rw [h0] at hget
  obtain rfl : (⟨1, "A", []⟩ : Notebook) = nb2 := Option.some.inj hget
  exact absurd ((hiff ⟨"Milk", 10⟩).2 (by decide)) (by simp)

/-- C2: the stale-cell delete of `Notebook::save` removes exactly the
stored cells owned by the notebook whose id is absent from the snapshot;
with an empty snapshot `save` leaves no cell owned by the notebook; and
every cell of a snapshot with pairwise distinct ids keeps its upserted
text across the save. -/
theorem save_delete_step (nb : Notebook) (db : DB) :
    (∀ (T : List TextRow) (r : TextRow),
        r ∈ execDeleteStale nb.id (nb.texts.map (fun t => t.id)) T ↔
          (r ∈ T ∧ ¬(r.notebook_id = nb.id ∧ r.id ∉ nb.texts.map (fun t => t.id)))) ∧
    (nb.texts = [] → ∀ r ∈ (nb.save db).texts, r.notebook_id ≠ nb.id) ∧
    ((nb.texts.map (fun t => t.id)).Nodup →
      ∀ c ∈ nb.texts, (∃ r ∈ (nb.save db).texts, r.id = c.id ∧ r.text = c.text) ∧
        ∀ r ∈ (nb.save db).texts, r.id = c.id → r.text = c.text) := by
  refine ⟨?_, ?_, ?_⟩
  · intro T r
    rw [mem_execDeleteStale]
    constructor
    · rintro ⟨hT, h⟩
      exact ⟨hT, fun ⟨hn, hk⟩ => hk (h hn)⟩
    · rintro ⟨hT, h⟩
      refine ⟨hT, fun hn => ?_⟩
      by_contra hk
      exact h ⟨hn, hk⟩
  · intro h0 r hr hn
    rw [save_texts, h0] at hr
    simp only [List.map_nil, execUpsertCells_nil] at hr
    simpa using (mem_execDeleteStale.1 hr).2 hn
  · intro hnd c hc
    constructor
    · obtain ⟨r, hrup, hrid⟩ := exists_id_mem_execUpsertCells nb.id db.texts hc
      refine ⟨r, ?_, hrid, text_mem_execUpsertCells hnd hc hrup hrid⟩
      rw [save_texts]
      exact mem_execDeleteStale.2 ⟨hrup, fun _ => by rw [hrid]; exact List.mem_map_of_mem _ hc⟩
    · intro r hr hid
      rw [save_texts] at hr
      exact text_mem_execUpsertCells hnd hc (mem_execDeleteStale.1 hr).1 hid

theorem save_delete_step_witness :
    ¬ (⟨1, 1, "a"⟩ : TextRow) ∈ (Notebook.save nbNoCells dbGroceries).texts :=
  fun hmem => (save_delete_step nbNoCells dbGroceries).2.1 rfl ⟨1, 1, "a"⟩ hmem rfl

/-- C4 (code bug): `Notebook::save` runs its three statements with no
transaction and propagates the first failure, so a failure of the
stale-cell delete leaves the first two statements committed — a
persisted state that differs both from the initial store and from the
fully saved store.  The spec requires all three steps to commit or roll
back together. -/
theorem save_not_atomic :
    Notebook.saveFirstStatements nbMilk dbTwoCells 2 ≠ dbTwoCells ∧
    Notebook.saveFirstStatements nbMilk dbTwoCells 2 ≠ Notebook.save nbMilk dbTwoCells ∧
    Notebook.saveFirstStatements nbMilk dbTwoCells 3 = Notebook.save nbMilk dbTwoCells := by
  decide

theorem find?_append_fresh {N : List NotebookRow} {i : Int} (h : ∀ r ∈ N, r.id ≠ i)
    (row : NotebookRow) (hrow : row.id = i) :
    (N ++ [row]).find? (fun r => r.id == i) = some row := by
  induction N with
  | nil => simp [List.find?, hrow]
  | cons a t ih =>
    have ha : (a.id == i) = false := by simp [h a (List.mem_cons_self a t)]
    rw [List.cons_append, List.find?_cons_of_neg _ (by simp_all), ih]
    exact fun r hr => h r (List.mem_cons_of_mem a hr)

/-- C5: creating a notebook under a taken name fails and leaves the store
unchanged; under a fresh name it appends one notebook row which, in a
store whose serial counter is fresh, loads back with an empty cell
set. -/
theorem create_notebook_spec (session : Option Int) (name : String) (db : DB)
    (hfreshN : ∀ r ∈ db.notebooks, r.id ≠ db.nextNotebookId)
    (hfreshT : ∀ t ∈ db.texts, t.notebook_id ≠ db.nextNotebookId) :
    ((∃ r ∈ db.notebooks, r.name = name) →
      (create_notebook session name db).result = .error .alreadyExists ∧
      (create_notebook session name db).db = db) ∧
    ((∀ r ∈ db.notebooks, r.name ≠ name) →
      (create_notebook session name db).result = .ok () ∧
      (create_notebook session name db).db.notebooks =
        db.notebooks ++ [⟨db.nextNotebookId, name⟩] ∧
      (create_notebook session name db).db.texts = db.texts ∧
      Notebook.get_from_id (create_notebook session name db).db db.nextNotebookId =
        some ⟨db.nextNotebookId, name, []⟩) := by
  constructor
  · rintro ⟨r, hr, hn⟩
    have hany : db.notebooks.any (fun r => r.name == name) = true :=
      List.any_eq_true.2 ⟨r, hr, by simp [hn]⟩
    simp [create_notebook, hany]
  · intro h
    have hany : db.notebooks.any (fun r => r.name == name) = false := by
      rw [List.any_eq_false]
      intro r hr
      simp [h r hr]
    simp only [create_notebook, hany, Bool.false_eq_true, if_false]
    refine ⟨trivial, trivial, trivial, ?_⟩
    have hfind : selectNotebookName
        { db with notebooks := db.notebooks ++ [⟨db.nextNotebookId, name⟩],
                  nextNotebookId := db.nextNotebookId + 1 } db.nextNotebookId =
        some ⟨db.nextNotebookId, name⟩ :=
      find?_append_fresh hfreshN _ rfl
    have hfil : db.texts.filter (fun t => t.notebook_id == db.nextNotebookId) = [] := by
      rw [List.filter_eq_nil_iff]
      intro t ht
      simp [hfreshT t ht]
    simp only [Notebook.get_from_id, hfind, hfil, List.map_nil]

theorem create_notebook_spec_witness :
    (create_notebook none "Groceries" dbGroceries).result = .error .alreadyExists ∧
    (create_notebook none "X" dbGroceries).result = .ok () := by
  constructor
  · exact ((create_notebook_spec none "Groceries" dbGroceries (by decide) (by decide)).1
      ⟨⟨1, "Groceries"⟩, by decide, rfl⟩).1
  · exact ((create_notebook_spec none "X" dbGroceries (by decide) (by decide)).2 (by decide)).1

/-- C6: past the session gate, adding a cell to an id for which no
notebook row exists fails (the foreign key of the spec's schema) and
persists nothing, while on an existing notebook it appends exactly one
placeholder cell and returns it with its assigned serial id. -/
theorem add_new_text_to_notebook_spec (session : Option Int) (id : Int) (db : DB)
    (hs : sessionMatches session id = true) :
    ((∀ r ∈ db.notebooks, r.id ≠ id) →
      (add_new_text_to_notebook session id db).result = .error .notFound ∧
      (add_new_text_to_notebook session id db).db = db) ∧
    ((∃ r ∈ db.notebooks, r.id = id) →
      (add_new_text_to_notebook session id db).result =
        .ok ⟨"New Text Box...", db.nextTextId⟩ ∧
      (add_new_text_to_notebook session id db).db.texts =
        db.texts ++ [⟨db.nextTextId, id, "New Text Box..."⟩] ∧
      (add_new_text_to_notebook session id db).db.notebooks = db.notebooks ∧
      (add_new_text_to_notebook session id db).db.nextTextId = db.nextTextId + 1) := by
  constructor
  · intro h
    have hany : db.notebooks.any (fun r => r.id == id) = false := by
      rw [List.any_eq_false]
      intro r hr
      simp [h r hr]
    simp [add_new_text_to_notebook, hs, insertCellRow, hany]
  · rintro ⟨r, hr, hid⟩
    have hany : db.notebooks.any (fun r => r.id == id) = true :=
      List.any_eq_true.2 ⟨r, hr, by simp [hid]⟩
    simp [add_new_text_to_notebook, hs, insertCellRow, hany]

theorem add_new_text_to_notebook_spec_witness :
    (add_new_text_to_notebook (some 5) 5 dbGroceries).result = .error .notFound ∧
    (add_new_text_to_notebook (some 1) 1 dbGroceries).result = .ok ⟨"New Text Box...", 4⟩ := by
  constructor
  · exact ((add_new_text_to_notebook_spec (some 5) 5 dbGroceries rfl).1 (by decide)).1
  · exact ((add_new_text_to_notebook_spec (some 1) 1 dbGroceries rfl).2
      ⟨⟨1, "Groceries"⟩, by decide, rfl⟩).1

/-- C7: whenever the session-bound notebook id does not match the target
id, each of the three notebook-scoped server functions runs no store
statement, leaves the store unchanged, fails with the access error and
redirects to notebook selection. -/
theorem session_gate (session : Option Int) (id : Int) (nb : Notebook) (db : DB) :
    (sessionMatches session id = false →
      (get_notebook session id db).result = .error .noAccess ∧
      (get_notebook session id db).db = db ∧
      (get_notebook session id db).redirect = some .home ∧
      (get_notebook session id db).calls = []) ∧
    (sessionMatches session nb.id = false →
      (save_notebook session nb db).result = .error .noAccess ∧
      (save_notebook session nb db).db = db ∧
      (save_notebook session nb db).redirect = some .home ∧
      (save_notebook session nb db).calls = []) ∧
    (sessionMatches session id = false →
      (add_new_text_to_notebook session id db).result = .error .noAccess ∧
      (add_new_text_to_notebook session id db).db = db ∧
      (add_new_text_to_notebook session id db).redirect = some .home ∧
      (add_new_text_to_notebook session id db).calls = []) := by
  refine ⟨fun h => ?_, fun h => ?_, fun h => ?_⟩ <;>
    simp [get_notebook, save_notebook, add_new_text_to_notebook, h]

theorem session_gate_witness :
    (get_notebook none 1 dbGroceries).result = .error .noAccess ∧
    (get_notebook none 1 dbGroceries).calls = [] ∧
    (save_notebook none nbGroceries dbGroceries).db = dbGroceries ∧
    (add_new_text_to_notebook none 1 dbGroceries).redirect = some .home := by
  obtain h := session_gate none 1 nbGroceries dbGroceries
  exact ⟨(h.1 rfl).1, (h.1 rfl).2.2.2, (h.2.1 rfl).2.1, (h.2.2 rfl).2.2.1⟩

theorem setFirstText_eq_map {ts : List TextFile} {i : Int} {s : String}
    (h : (ts.map (fun t => t.id)).Nodup) :
    setFirstText ts i s = ts.map (fun t => if t.id = i then { t with text := s } else t) := by
  induction ts with
  | nil => rfl
  | cons t ts ih =>
    rw [List.map_cons, List.nodup_cons] at h
    unfold setFirstText
    by_cases hid : t.id = i
    · rw [if_pos hid, List.map_cons, if_pos hid]
      congr 1
      symm
      refine list_map_eq_self (fun a ha => ?_)
      rw [if_neg]
      intro hai
      exact h.1 (List.mem_map.2 ⟨a, ha, hai.trans hid.symm⟩)
    · rw [if_neg hid, List.map_cons, if_neg hid, ih h.2]

theorem setFirstText_no_match {ts : List TextFile} {i : Int} {s : String}
    (h : ∀ t ∈ ts, t.id ≠ i) : setFirstText ts i s = ts := by
  induction ts with
  | nil => rfl
  | cons t ts ih =>
    unfold setFirstText
    rw [if_neg (h t (List.mem_cons_self t ts)), ih (fun a ha => h a (List.mem_cons_of_mem t ha))]

/-- C8: on a notebook whose cells have pairwise distinct ids, `set_text`
replaces in place the text of the cell with the given id, leaves every
other cell, the notebook id and the notebook name unchanged, and is a
complete no-op when no cell carries that id. -/
theorem set_text_spec (nb : Notebook) (id : Int) (text : String)
    (h : (nb.texts.map (fun t => t.id)).Nodup) :
    (nb.set_text id text).id = nb.id ∧
    (nb.set_text id text).name = nb.name ∧
    (nb.set_text id text).texts =
      nb.texts.map (fun t => if t.id = id then { t with text := text } else t) ∧
    ((∀ t ∈ nb.texts, t.id ≠ id) → nb.set_text id text = nb) := by
  refine ⟨rfl, rfl, setFirstText_eq_map h, fun h2 => ?_⟩
  show ({ nb with texts := setFirstText nb.texts id text } : Notebook) = nb
  rw [setFirstText_no_match h2]

theorem set_text_spec_witness :
    (Notebook.set_text nbGroceries 3 "z").texts =
      nbGroceries.texts.map (fun t => if t.id = 3 then { t with text := "z" } else t) :=
  (set_text_spec nbGroceries 3 "z" (by decide)).2.2.1

theorem deleteFirstText_eq_eraseP (ts : List TextFile) (i : Int) :
    deleteFirstText ts i = ts.eraseP (fun t => t.id == i) := by
  induction ts with
  | nil => rfl
  | cons t ts ih =>
    unfold deleteFirstText
    rw [List.eraseP_cons]
    by_cases hid : t.id = i
    · have hb : (t.id == i) = true := by simp [hid]
      rw [if_pos hid, hb, cond_true]
    · have hb : (t.id == i) = false := by simp [hid]
      rw [if_neg hid, hb, cond_false, ih]

theorem deleteFirstText_length (ts : List TextFile) (i : Int) :
    ts.length ≤ (deleteFirstText ts i).length + 1 := by
  induction ts with
  | nil => simp [deleteFirstText]
  | cons t ts ih =>
    unfold deleteFirstText
    by_cases hid : t.id = i
    · simp [hid]
    · rw [if_neg hid]
      simpa using Nat.add_le_add_right ih 0

theorem deleteFirstText_no_match {ts : List TextFile} {i : Int}
    (h : ∀ t ∈ ts, t.id ≠ i) : deleteFirstText ts i = ts := by
  induction ts with
  | nil => rfl
  | cons t ts ih =>
    unfold deleteFirstText
    rw [if_neg (h t (List.mem_cons_self t ts)), ih (fun a ha => h a (List.mem_cons_of_mem t ha))]

/-- C9 (amended): `delete_text` removes at most one cell per call — the
first whose id matches — leaves the notebook id and name unchanged, and
on an absent id is a no-op with no error; its return value is the unit
value, so it carries no indicator of whether a cell was removed. -/
theorem delete_text_spec (nb : Notebook) (id : Int) :
    (nb.delete_text id).id = nb.id ∧
    (nb.delete_text id).name = nb.name ∧
    (nb.delete_text id).texts = nb.texts.eraseP (fun t => t.id == id) ∧
    nb.texts.length ≤ (nb.delete_text id).texts.length + 1 ∧
    ((∀ t ∈ nb.texts, t.id ≠ id) → nb.delete_text id = nb) := by
  refine ⟨rfl, rfl, deleteFirstText_eq_eraseP nb.texts id, deleteFirstText_length nb.texts id,
    fun h => ?_⟩
  show ({ nb with texts := deleteFirstText nb.texts id } : Notebook) = nb
  rw [deleteFirstText_no_match h]

theorem delete_text_spec_witness :
    Notebook.delete_text nbNoCells 4 = nbNoCells :=
  (delete_text_spec nbNoCells 4).2.2.2.2 (by decide)

/-- C9 (counterexample): deleting cell 10 from a notebook that has it does
remove a cell, and from a notebook without it removes none, yet both
calls return the same unit value — no reading of the return value can
report whether a row was actually removed, so `delete_text` does not
return such an indicator. -/
theorem delete_text_cex :
    (Notebook.delete_text nbMilk 10).texts ≠ nbMilk.texts ∧
    Notebook.delete_text nbNoCells 10 = nbNoCells ∧
    ¬ ∃ f : Unit → Bool,
        f (Notebook.delete_text_call nbMilk 10).2 = true ∧
        f (Notebook.delete_text_call nbNoCells 10).2 = false := by
  refine ⟨by decide, by decide, ?_⟩
  rintro ⟨f, h1, h2⟩
  exact Bool.noConfusion (h1.symm.trans h2)

/-- C10: `add_new_text` appends the given cell at the end of the cell
list: the length grows by one, the new last position holds the cell,
every previously present cell keeps its position, and the notebook id
and name are unchanged. -/
theorem add_new_text_append (nb : Notebook) (t : TextFile) :
    (nb.add_new_text t).id = nb.id ∧
    (nb.add_new_text t).name = nb.name ∧
    (nb.add_new_text t).texts.length = nb.texts.length + 1 ∧
    (nb.add_new_text t).texts[nb.texts.length]? = some t ∧
    ∀ i : Nat, i < nb.texts.length → (nb.add_new_text t).texts[i]? = nb.texts[i]? := by
  refine ⟨rfl, rfl, by simp [Notebook.add_new_text], ?_, ?_⟩
  · show (nb.texts ++ [t])[nb.texts.length]? = some t
    rw [List.getElem?_concat_length]
  · intro i hi
    show (nb.texts ++ [t])[i]? = nb.texts[i]?
    rw [List.getElem?_append_left hi]

theorem add_new_text_append_witness :
    (Notebook.add_new_text nbGroceries ⟨"d", 9⟩).texts[0]? = nbGroceries.texts[0]? :=
  (add_new_text_append nbGroceries ⟨"d", 9⟩).2.2.2.2 0 (by decide)

end NoteToSelf
